import Mathlib

/-!
Shallow embedding of whisk-cli (src/main.rs): a terminal project manager with a
file-backed JSON store and a key-event loop.  The store ops (`get_db_path`,
`read_db`, `add_project_to_db`, `remove_project_at_index`) are embedded over a
document-level filesystem model; the event loop (src/main.rs:157-212) is a step
function on the application state.
-/

set_option linter.unusedVariables false

namespace Whisk

/-- A persisted project record (src/main.rs:42-48).  `created_at` is the UTC
timestamp, modelled as a natural number of time units since the epoch. -/
structure Project where
  id : String
  name : String
  directory : String
  created_at : Nat
deriving DecidableEq

/-- The error enum of the store (src/main.rs:29-35).  It has exactly two
variants: reading the DB file failed, or parsing its content failed. -/
inductive Error where
  | ReadDBError
  | ParseDBError
deriving DecidableEq

/-- Document-level model of the slice of the filesystem the store touches:
whether the config directory exists, and the contents of db.json.
`file = none` means the file is absent; `file = some l` means the file holds
the serialized array of the records `l`, so `some []` is the literal text
"[]" that `get_db_path` writes on first use.  (serde_json serialization
round-trips, so the document is identified with the parsed record list.) -/
structure FS where
  dirExists : Bool
  file : Option (List Project)
deriving DecidableEq

/-- Embeds `get_db_path` (src/main.rs:330-344): `fs::create_dir_all` ensures
the config directory exists, and if db.json is absent it is created with
content "[]" (the empty array).  Both results are ignored by the source, so
the model treats them as succeeding. -/
def get_db_path (fs : FS) : FS :=
  let fs1 : FS := { fs with dirExists := true }
  match fs1.file with
  | none => { fs1 with file := some [] }
  | some _ => fs1

/-- Embeds `read_db` (src/main.rs:346-350): reads the file at `get_db_path()`
and parses it into a record list.  In the document-level model a present file
always holds a well-formed document, so parsing succeeds; an absent file is a
read error.  Returns the filesystem after the lazy creation together with the
result. -/
def read_db (fs : FS) : FS × Except Error (List Project) :=
  let fs1 := get_db_path fs
  match fs1.file with
  | none => (fs1, Except.error Error.ReadDBError)
  | some parsed => (fs1, Except.ok parsed)

/-- Embeds `add_project_to_db` (src/main.rs:352-366): reads and parses the
current document, pushes a new record built from the given name and directory,
writes the full list back, and returns it.  The source draws the id from
`Uuid::new_v4()` and the timestamp from `Utc::now()`; the model takes both as
parameters `id` and `now`. -/
def add_project_to_db (fs : FS) (project_name directory : String)
    (id : String) (now : Nat) : FS × Except Error (List Project) :=
  let fs1 := get_db_path fs
  match fs1.file with
  | none => (fs1, Except.error Error.ReadDBError)
  | some parsed =>
      let new_project : Project :=
        { id := id, name := project_name, directory := directory,
          created_at := now }
      let parsed2 := parsed ++ [new_project]
      let fs2 := get_db_path fs1
      ({ fs2 with file := some parsed2 }, Except.ok parsed2)

/-- Outcome of `remove_project_at_index`: normal return carrying the
filesystem and the new selection of the `ListState`, an error return via
the `?` operator, or a Rust panic (which aborts the process).  The carried
filesystem is the on-disk state at the moment the function stops. -/
inductive RemoveOutcome where
  | ok (fs : FS) (sel : Option Nat)
  | err (fs : FS) (e : Error)
  | panicked (fs : FS)
deriving DecidableEq

/-- Whether the outcome is an error return (an `Err` value of the `Error`
enum, as opposed to a normal return or a panic). -/
def RemoveOutcome.isErr : RemoveOutcome → Bool
  | RemoveOutcome.err _ _ => true
  | _ => false

/-- Embeds `remove_project_at_index` (src/main.rs:368-382): when a selection
is present, reads and parses the document, calls `Vec::remove(selected)` -
which panics when `selected` is not below the length, before anything is
written - then writes the remainder back and moves the selection to
`selected - 1` when `selected > 0`, else to `0`.  When no selection is
present nothing happens. -/
def remove_project_at_index (fs : FS) (sel : Option Nat) : RemoveOutcome :=
  match sel with
  | none => RemoveOutcome.ok fs none
  | some selected =>
      let fs1 := get_db_path fs
      match fs1.file with
      | none => RemoveOutcome.err fs1 Error.ReadDBError
      | some parsed =>
          if selected < parsed.length then
            let parsed2 := parsed.eraseIdx selected
            let fs2 := get_db_path fs1
            RemoveOutcome.ok { fs2 with file := some parsed2 }
              (some (if 0 < selected then selected - 1 else 0))
          else
            RemoveOutcome.panicked fs1

/-- Rust `usize` subtraction: on underflow the program is in error - it
panics under debug assertions (release builds wrap instead, which the model
also treats as the program leaving its intended behavior).  `none` marks the
underflow being reached. -/
def usizeSub (a b : Nat) : Option Nat :=
  if b ≤ a then some (a - b) else none

/-- The active tab (src/main.rs:50-54). -/
inductive MenuItem where
  | Home
  | Projects
deriving DecidableEq

/-- The mutable state of the main loop (src/main.rs:97-99): the active tab,
the `ListState` selection, and the current contents of the store (the loop
re-reads the file on every use, and only this process writes it, so the file
contents are carried as part of the state). -/
structure AppState where
  active_menu_item : MenuItem
  selected : Option Nat
  db : List Project
deriving DecidableEq

/-- Outcome of the external directory picker invoked by the add key
(src/main.rs:166-184): a chosen path (together with the uuid and timestamp
the subsequent `add_project_to_db` call will draw), a user cancel, or an
error.  -/
inductive PickerOutcome where
  | okSome (path : String) (id : String) (now : Nat)
  | okNone
  | err
deriving DecidableEq

/-- One event received by the main loop (src/main.rs:157-212): a key press
(quit, home, projects, add with its picker outcome, delete, down, up, or any
other key) or a timer tick. -/
inductive Ev where
  | key_q
  | key_h
  | key_p
  | key_a (o : PickerOutcome)
  | key_d
  | key_down
  | key_up
  | tick
  | other
deriving DecidableEq

/-- Embeds the project-name derivation of the add handler
(src/main.rs:169-172): `out.split` on the slash character followed by
`next_back` yields the final slash-separated segment of the chosen path;
`split` always yields at least one piece, so the `expect` never fires. -/
def lastSegment (out : String) : String :=
  (out.splitOn "/").getLastD ""

/-- Embeds one iteration of the event match in the main loop
(src/main.rs:157-212).  `none` means the process stops at this event: the
quit key breaks the loop, a picker error calls `process::exit(1)`, and the
panics inside the handlers (`expect` on a store error, `Vec::remove` out of
bounds, `usize` underflow in the up/down arithmetic) abort.  The store calls
operate on the filesystem `⟨true, some s.db⟩`: after the first access the
directory and file exist and the file holds the current record list. -/
def step (s : AppState) (e : Ev) : Option AppState :=
  match e with
  | Ev.key_q => none
  | Ev.key_h => some { s with active_menu_item := MenuItem.Home }
  | Ev.key_p => some { s with active_menu_item := MenuItem.Projects }
  | Ev.key_a o =>
      match o with
      | PickerOutcome.okSome path id now =>
          match add_project_to_db { dirExists := true, file := some s.db }
              (lastSegment path) path id now with
          | (fs2, Except.ok _) =>
              match fs2.file with
              | some db2 => some { s with db := db2 }
              | none => none
          | (_, Except.error _) => none
      | PickerOutcome.okNone => some s
      | PickerOutcome.err => none
  | Ev.key_d =>
      match remove_project_at_index { dirExists := true, file := some s.db }
          s.selected with
      | RemoveOutcome.ok fs2 sel2 =>
          match fs2.file with
          | some db2 => some { s with db := db2, selected := sel2 }
          | none => none
      | RemoveOutcome.err _ _ => none
      | RemoveOutcome.panicked _ => none
  | Ev.key_down =>
      match s.selected with
      | none => some s
      | some selected =>
          let amount_projects := s.db.length
          match usizeSub amount_projects 1 with
          | none => none
          | some last =>
              if last ≤ selected then some { s with selected := some 0 }
              else some { s with selected := some (selected + 1) }
  | Ev.key_up =>
      match s.selected with
      | none => some s
      | some selected =>
          let amount_projects := s.db.length
          if 0 < selected then some { s with selected := some (selected - 1) }
          else
            match usizeSub amount_projects 1 with
            | none => none
            | some last => some { s with selected := some last }
  | Ev.tick => some s
  | Ev.other => some s

/-- Runs the main loop over a list of events, threading the state;
stops with `none` as soon as one event stops the process. -/
def run (s : AppState) : List Ev → Option AppState
  | [] => some s
  | e :: rest =>
      match step s e with
      | none => none
      | some s2 => run s2 rest

/-- The initial state of the main loop (src/main.rs:97-99): Home tab and
selection `Some(0)`; the store holds whatever the file held at startup. -/
def appInit (db0 : List Project) : AppState :=
  { active_menu_item := MenuItem.Home, selected := some 0, db := db0 }

/-- The placeholder condition of `render_projects` (src/main.rs:270-281):
the right panel shows the "No project selected" placeholder instead of the
detail table exactly when the selection is `None` or the list is empty. -/
def showsPlaceholder (sel : Option Nat) (db : List Project) : Bool :=
  sel.isNone || db.length == 0

/-- A concrete record used to instantiate counterexamples and witnesses. -/
def sampleProject : Project :=
  { id := "id0", name := "demo", directory := "/tmp/demo", created_at := 0 }

lemma get_db_path_some (b : Bool) (db : List Project) :
    get_db_path { dirExists := b, file := some db } =
      { dirExists := true, file := some db } := rfl

lemma remove_some_file (db : List Project) (i : Nat) :
    remove_project_at_index { dirExists := true, file := some db } (some i) =
      if i < db.length then
        RemoveOutcome.ok { dirExists := true, file := some (db.eraseIdx i) }
          (some (if 0 < i then i - 1 else 0))
      else
        RemoveOutcome.panicked { dirExists := true, file := some db } := by
  simp only [remove_project_at_index, get_db_path_some]

lemma add_some_file (db : List Project) (n d id : String) (now : Nat) :
    add_project_to_db { dirExists := true, file := some db } n d id now =
      ({ dirExists := true,
         file := some (db ++ [{ id := id, name := n, directory := d,
                                created_at := now }]) },
       Except.ok (db ++ [{ id := id, name := n, directory := d,
                           created_at := now }])) := rfl

/-- C8: in a fresh environment (no config directory, no db file) the first
`load` creates the directory, creates the file initialized to the empty
array "[]" (modelled as the document `some []`), and returns the empty
record sequence. -/
theorem first_load_creates_empty_db :
    read_db { dirExists := false, file := none } =
      ({ dirExists := true, file := some [] }, Except.ok ([] : List Project)) :=
  rfl

/-- C1: appending to any store state persists and returns exactly the old
records, in order, plus one new record at the end whose name and directory
are the given ones, whose id is the freshly generated uuid, and whose
created_at is the `Utc::now()` value drawn during the call - hence at or
after the time the call was made; a subsequent load returns the same
updated list. -/
theorem append_roundtrip (db : List Project) (n d id : String)
    (now callTime : Nat) (hnow : callTime ≤ now) :
    ∃ p : Project,
      add_project_to_db { dirExists := true, file := some db } n d id now =
        ({ dirExists := true, file := some (db ++ [p]) },
         Except.ok (db ++ [p])) ∧
      (read_db { dirExists := true, file := some db }).2 = Except.ok db ∧
      (read_db (add_project_to_db { dirExists := true, file := some db }
          n d id now).1).2 = Except.ok (db ++ [p]) ∧
      p.name = n ∧ p.directory = d ∧ p.id = id ∧ callTime ≤ p.created_at := by
  exact ⟨{ id := id, name := n, directory := d, created_at := now },
    rfl, rfl, rfl, rfl, rfl, rfl, hnow⟩

/-- Witness for C1 at a concrete input: empty store, name "demo",
directory "/tmp/demo", uuid "id1", call time 3, clock reading 5. -/
theorem append_roundtrip_witness :
    (3 : Nat) ≤ 5 ∧
    ∃ p : Project,
      add_project_to_db { dirExists := true, file := some [] }
          "demo" "/tmp/demo" "id1" 5 =
        ({ dirExists := true, file := some ([] ++ [p]) },
         Except.ok ([] ++ [p])) ∧
      (read_db { dirExists := true, file := some [] }).2 =
        Except.ok ([] : List Project) ∧
      (read_db (add_project_to_db { dirExists := true, file := some [] }
          "demo" "/tmp/demo" "id1" 5).1).2 = Except.ok ([] ++ [p]) ∧
      p.name = "demo" ∧ p.directory = "/tmp/demo" ∧ p.id = "id1" ∧
      3 ≤ p.created_at :=
  ⟨by decide, append_roundtrip [] "demo" "/tmp/demo" "id1" 5 3 (by decide)⟩

/-- C2: removing at an in-range index from a persisted list of positive
length leaves the store holding the list with exactly the element at that
index gone - the elements before it and after it in their original relative
order - and of length one less. -/
theorem remove_at_in_range (db : List Project) (i : Nat)
    (hL : 0 < db.length) (hi : i < db.length) :
    ∃ sel2 : Option Nat,
      remove_project_at_index { dirExists := true, file := some db }
          (some i) =
        RemoveOutcome.ok
          { dirExists := true, file := some (db.take i ++ db.drop (i + 1)) }
          sel2 ∧
      (db.take i ++ db.drop (i + 1)).length = db.length - 1 := by
  refine ⟨some (if 0 < i then i - 1 else 0), ?_, ?_⟩
  · rw [remove_some_file, if_pos hi, List.eraseIdx_eq_take_drop_succ]
  · rw [← List.eraseIdx_eq_take_drop_succ]
    have h := List.length_eraseIdx_add_one hi
    omega

/-- Witness for C2 at a concrete input: the one-element store, index 0. -/
theorem remove_at_in_range_witness :
    0 < [sampleProject].length ∧ 0 < [sampleProject].length ∧
    ∃ sel2 : Option Nat,
      remove_project_at_index { dirExists := true, file := some [sampleProject] }
          (some 0) =
        RemoveOutcome.ok
          { dirExists := true,
            file := some ([sampleProject].take 0 ++ [sampleProject].drop 1) }
          sel2 ∧
      ([sampleProject].take 0 ++ [sampleProject].drop 1).length =
        [sampleProject].length - 1 :=
  ⟨by decide, by decide,
    remove_at_in_range [sampleProject] 0 (by decide) (by decide)⟩

/-- Counterexample to C3 as stated: at an out-of-range index the call does
not return any error value (the source error enum has only `ReadDBError` and
`ParseDBError`, no `IndexOutOfRange`); it panics inside `Vec::remove`, with
the store still holding the original list. -/
theorem remove_at_oob_counterexample :
    (remove_project_at_index { dirExists := true, file := some [sampleProject] }
        (some 5)).isErr = false ∧
    remove_project_at_index { dirExists := true, file := some [sampleProject] }
        (some 5) =
      RemoveOutcome.panicked { dirExists := true, file := some [sampleProject] } := by
  constructor <;> rfl

/-- C3 amended: removing at an index outside the list fails - but by
panicking at the `Vec::remove` bounds check (no `IndexOutOfRange` error value
exists in the error enum of the code), and since the panic happens before the
write, the persisted store is left unmodified. -/
theorem remove_at_oob_panics (db : List Project) (i : Nat)
    (hi : db.length ≤ i) :
    remove_project_at_index { dirExists := true, file := some db } (some i) =
      RemoveOutcome.panicked { dirExists := true, file := some db } := by
  rw [remove_some_file, if_neg (by omega)]

/-- Witness for the amended C3 at a concrete input: one-element store,
index 5. -/
theorem remove_at_oob_panics_witness :
    [sampleProject].length ≤ 5 ∧
    remove_project_at_index { dirExists := true, file := some [sampleProject] }
        (some 5) =
      RemoveOutcome.panicked { dirExists := true, file := some [sampleProject] } :=
  ⟨by decide, remove_at_oob_panics [sampleProject] 5 (by decide)⟩

/-- Counterexample to C6 as stated: deleting the only record (length 1,
selection 0) leaves the selection at `Some 0`, not at `None`, although the
resulting list is empty. -/
theorem delete_empty_sel_counterexample :
    remove_project_at_index { dirExists := true, file := some [sampleProject] }
        (some 0) =
      RemoveOutcome.ok { dirExists := true, file := some [] } (some 0) ∧
    (some 0 : Option Nat) ≠ (none : Option Nat) :=
  ⟨rfl, by decide⟩

/-- C6 amended: with a valid selection `i` on a list of positive length,
the delete handler removes the element at `i` and always sets the selection
to `Some (max (i-1) 0)` - that is `Some (i-1)` in natural subtraction - even
when the resulting list is empty; it never sets the selection to `None`. -/
theorem delete_sel_clamp (db : List Project) (i : Nat) (hi : i < db.length) :
    remove_project_at_index { dirExists := true, file := some db } (some i) =
      RemoveOutcome.ok { dirExists := true, file := some (db.eraseIdx i) }
        (some (i - 1)) := by
  rw [remove_some_file, if_pos hi]
  have h : (if 0 < i then i - 1 else 0) = i - 1 := by
    cases i <;> simp
  rw [h]

/-- Witness for the amended C6 at a concrete input: the one-element store,
index 0 (the resulting list is empty, the selection stays `Some 0`). -/
theorem delete_sel_clamp_witness :
    0 < [sampleProject].length ∧
    remove_project_at_index { dirExists := true, file := some [sampleProject] }
        (some 0) =
      RemoveOutcome.ok { dirExists := true, file := some ([sampleProject].eraseIdx 0) }
        (some (0 - 1)) :=
  ⟨by decide, delete_sel_clamp [sampleProject] 0 (by decide)⟩

/-- Counterexample to C9 as stated: on the Home tab with a one-record store
and selection 0, pressing the delete key does change the persisted store
(the record is removed) - the handler has no tab guard. -/
theorem delete_on_home_counterexample :
    step { active_menu_item := MenuItem.Home, selected := some 0,
           db := [sampleProject] } Ev.key_d =
      some { active_menu_item := MenuItem.Home, selected := some 0,
             db := [] } ∧
    ([] : List Project) ≠ [sampleProject] :=
  ⟨rfl, by decide⟩

/-- C9 amended: the delete-key handler calls `remove_project_at_index`
unconditionally, whatever the active tab: with any tab and an in-range
selection `i`, pressing delete removes the record at `i` from the store and
clamps the selection. -/
theorem delete_ignores_tab (tab : MenuItem) (db : List Project) (i : Nat)
    (hi : i < db.length) :
    step { active_menu_item := tab, selected := some i, db := db } Ev.key_d =
      some { active_menu_item := tab,
             selected := some (if 0 < i then i - 1 else 0),
             db := db.eraseIdx i } := by
  unfold step
  rw [remove_some_file, if_pos hi]

/-- Witness for the amended C9 at a concrete input: Home tab, one-record
store, selection 0. -/
theorem delete_ignores_tab_witness :
    0 < [sampleProject].length ∧
    step { active_menu_item := MenuItem.Home, selected := some 0,
           db := [sampleProject] } Ev.key_d =
      some { active_menu_item := MenuItem.Home,
             selected := some (if 0 < 0 then 0 - 1 else 0),
             db := [sampleProject].eraseIdx 0 } :=
  ⟨by decide, delete_ignores_tab MenuItem.Home [sampleProject] 0 (by decide)⟩

/-- C4: with an empty project list and a selection present, both the
down-key and the up-key handlers reach the unsigned underflow
`amount_projects - 1` with `amount_projects = 0` and the process aborts
(`none`) - the handlers are not the no-op the spec prescribes. -/
theorem empty_nav_underflow :
    step { active_menu_item := MenuItem.Projects, selected := some 0,
           db := [] } Ev.key_down = none ∧
    step { active_menu_item := MenuItem.Projects, selected := some 0,
           db := [] } Ev.key_up = none :=
  ⟨rfl, rfl⟩

lemma step_down_eq (tab : MenuItem) (db : List Project) (i : Nat) :
    step { active_menu_item := tab, selected := some i, db := db }
        Ev.key_down =
      (match usizeSub db.length 1 with
       | none => none
       | some last =>
           if last ≤ i then
             some { active_menu_item := tab, selected := some 0, db := db }
           else
             some { active_menu_item := tab, selected := some (i + 1),
                    db := db }) := rfl

lemma step_up_eq (tab : MenuItem) (db : List Project) (i : Nat) :
    step { active_menu_item := tab, selected := some i, db := db }
        Ev.key_up =
      (if 0 < i then
         some { active_menu_item := tab, selected := some (i - 1), db := db }
       else
         match usizeSub db.length 1 with
         | none => none
         | some last =>
             some { active_menu_item := tab, selected := some last,
                    db := db }) := rfl

/-- C5: on a list of positive length with an in-range selection `i`, the
down-key moves the selection to `(i + 1) mod len` (wrapping from the last
index to 0) and the up-key moves it to `(i + len - 1) mod len` (wrapping
from 0 to `len - 1`), whatever the active tab. -/
theorem nav_wraparound (tab : MenuItem) (db : List Project) (i : Nat)
    (hL : 0 < db.length) (hi : i < db.length) :
    step { active_menu_item := tab, selected := some i, db := db }
        Ev.key_down =
      some { active_menu_item := tab,
             selected := some ((i + 1) % db.length), db := db } ∧
    step { active_menu_item := tab, selected := some i, db := db }
        Ev.key_up =
      some { active_menu_item := tab,
             selected := some ((i + db.length - 1) % db.length), db := db } := by
  have hsub : usizeSub db.length 1 = some (db.length - 1) := by
    unfold usizeSub
    rw [if_pos (by omega)]
  constructor
  · simp only [step_down_eq, hsub]
    by_cases h : db.length - 1 ≤ i
    · rw [if_pos h]
      have h1 : (i + 1) % db.length = 0 := by
        have e : i + 1 = db.length := by omega
        rw [e, Nat.mod_self]
      rw [h1]
    · rw [if_neg h]
      rw [Nat.mod_eq_of_lt (by omega : i + 1 < db.length)]
  · simp only [step_up_eq]
    by_cases h : 0 < i
    · rw [if_pos h]
      have h1 : (i + db.length - 1) % db.length = i - 1 := by
        have e : i + db.length - 1 = (i - 1) + db.length := by omega
        rw [e, Nat.add_mod_right, Nat.mod_eq_of_lt (by omega)]
      rw [h1]
    · rw [if_neg h]
      simp only [hsub]
      have h1 : (i + db.length - 1) % db.length = db.length - 1 := by
        have e : i = 0 := by omega
        rw [e, Nat.zero_add, Nat.mod_eq_of_lt (by omega)]
      rw [h1]

/-- Witness for C5 at a concrete input: a three-element list with
selection at the last index 2 (down wraps to 0, up moves to 1). -/
theorem nav_wraparound_witness :
    0 < [sampleProject, sampleProject, sampleProject].length ∧
    2 < [sampleProject, sampleProject, sampleProject].length ∧
    (step { active_menu_item := MenuItem.Projects, selected := some 2,
            db := [sampleProject, sampleProject, sampleProject] }
         Ev.key_down =
       some { active_menu_item := MenuItem.Projects,
              selected := some ((2 + 1) %
                [sampleProject, sampleProject, sampleProject].length),
              db := [sampleProject, sampleProject, sampleProject] } ∧
     step { active_menu_item := MenuItem.Projects, selected := some 2,
            db := [sampleProject, sampleProject, sampleProject] }
         Ev.key_up =
       some { active_menu_item := MenuItem.Projects,
              selected := some ((2 +
                [sampleProject, sampleProject, sampleProject].length - 1) %
                [sampleProject, sampleProject, sampleProject].length),
              db := [sampleProject, sampleProject, sampleProject] }) :=
  ⟨by decide, by decide,
    nav_wraparound MenuItem.Projects [sampleProject, sampleProject, sampleProject]
      2 (by decide) (by decide)⟩

lemma step_d_eq (tab : MenuItem) (db : List Project) (i : Nat) :
    step { active_menu_item := tab, selected := some i, db := db } Ev.key_d =
      if i < db.length then
        some { active_menu_item := tab,
               selected := some (if 0 < i then i - 1 else 0),
               db := db.eraseIdx i }
      else none := by
  by_cases hi : i < db.length
  · rw [if_pos hi]
    unfold step
    rw [remove_some_file, if_pos hi]
  · rw [if_neg hi]
    unfold step
    rw [remove_some_file, if_neg hi]

lemma step_a_some_eq (tab : MenuItem) (db : List Project) (sel : Option Nat)
    (path id : String) (now : Nat) :
    step { active_menu_item := tab, selected := sel, db := db }
        (Ev.key_a (PickerOutcome.okSome path id now)) =
      some { active_menu_item := tab, selected := sel,
             db := db ++ [{ id := id, name := lastSegment path,
                            directory := path, created_at := now }] } := rfl

lemma usizeSub_one_pos (n : Nat) (h : 0 < n) :
    usizeSub n 1 = some (n - 1) := by
  unfold usizeSub
  rw [if_pos (by omega)]

/-- Inductive invariant of the main loop state: a selection is always
present, and it is below the list length whenever the list is non-empty
(when the list is empty the bound `max len 1` forces the selection to 0). -/
def SelInv (s : AppState) : Prop :=
  ∃ i, s.selected = some i ∧ i < max s.db.length 1

lemma selInv_appInit (db0 : List Project) : SelInv (appInit db0) :=
  ⟨0, rfl, Nat.lt_of_lt_of_le Nat.zero_lt_one (Nat.le_max_right _ _)⟩

lemma step_selInv (s s2 : AppState) (e : Ev) (hInv : SelInv s)
    (hstep : step s e = some s2) : SelInv s2 := by
  obtain ⟨i, hsel, hlt⟩ := hInv
  obtain ⟨tab, sel, db⟩ := s
  simp only at hsel hlt
  subst hsel
  cases e with
  | key_q => simp [step] at hstep
  | key_h =>
      simp only [step, Option.some.injEq] at hstep
      subst hstep
      exact ⟨i, rfl, hlt⟩
  | key_p =>
      simp only [step, Option.some.injEq] at hstep
      subst hstep
      exact ⟨i, rfl, hlt⟩
  | key_a o =>
      cases o with
      | okSome path id now =>
          rw [step_a_some_eq] at hstep
          obtain rfl := Option.some.inj hstep
          refine ⟨i, rfl, ?_⟩
          simp only [List.length_append, List.length_cons, List.length_nil]
          omega
      | okNone =>
          simp only [step, Option.some.injEq] at hstep
          subst hstep
          exact ⟨i, rfl, hlt⟩
      | err => simp [step] at hstep
  | key_d =>
      rw [step_d_eq] at hstep
      by_cases hi : i < db.length
      · rw [if_pos hi] at hstep
        obtain rfl := Option.some.inj hstep
        refine ⟨if 0 < i then i - 1 else 0, rfl, ?_⟩
        show (if 0 < i then i - 1 else 0) < max (db.eraseIdx i).length 1
        have hlen := List.length_eraseIdx_add_one hi
        rcases Nat.eq_zero_or_pos i with h0 | h0
        · subst h0
          rw [if_neg (Nat.lt_irrefl 0)]
          omega
        · rw [if_pos h0]
          omega
      · rw [if_neg hi] at hstep
        exact absurd hstep (by simp)
  | key_down =>
      rw [step_down_eq] at hstep
      rcases Nat.eq_zero_or_pos db.length with hL | hL
      · rw [hL] at hstep
        simp [usizeSub] at hstep
      · rw [usizeSub_one_pos db.length hL] at hstep
        simp only at hstep
        by_cases h2 : db.length - 1 ≤ i
        · rw [if_pos h2] at hstep
          obtain rfl := Option.some.inj hstep
          exact ⟨0, rfl, show 0 < max db.length 1 by omega⟩
        · rw [if_neg h2] at hstep
          obtain rfl := Option.some.inj hstep
          exact ⟨i + 1, rfl, show i + 1 < max db.length 1 by omega⟩
  | key_up =>
      rw [step_up_eq] at hstep
      by_cases h0 : 0 < i
      · rw [if_pos h0] at hstep
        obtain rfl := Option.some.inj hstep
        exact ⟨i - 1, rfl, show i - 1 < max db.length 1 by omega⟩
      · rw [if_neg h0] at hstep
        rcases Nat.eq_zero_or_pos db.length with hL | hL
        · rw [hL] at hstep
          simp [usizeSub] at hstep
        · rw [usizeSub_one_pos db.length hL] at hstep
          simp only at hstep
          obtain rfl := Option.some.inj hstep
          exact ⟨db.length - 1, rfl,
            show db.length - 1 < max db.length 1 by omega⟩
  | tick =>
      simp only [step, Option.some.injEq] at hstep
      subst hstep
      exact ⟨i, rfl, hlt⟩
  | other =>
      simp only [step, Option.some.injEq] at hstep
      subst hstep
      exact ⟨i, rfl, hlt⟩

lemma run_selInv (evs : List Ev) (s s2 : AppState) (hInv : SelInv s)
    (hrun : run s evs = some s2) : SelInv s2 := by
  induction evs generalizing s with
  | nil =>
      simp only [run, Option.some.injEq] at hrun
      subst hrun
      exact hInv
  | cons e rest ih =>
      simp only [run] at hrun
      cases hstep : step s e with
      | none => rw [hstep] at hrun; simp at hrun
      | some s1 =>
          rw [hstep] at hrun
          exact ih s1 (step_selInv s s1 e hInv hstep) hrun

/-- C7: in every state reachable from the initial state (Home tab,
selection `Some 0`, arbitrary initial store) by any event sequence the
process survives, if the active tab is Projects and the store is non-empty
of length `len`, then the selection is `Some i` with `i < len`. -/
theorem projects_selection_invariant (db0 : List Project) (evs : List Ev)
    (s : AppState) (hrun : run (appInit db0) evs = some s)
    (htab : s.active_menu_item = MenuItem.Projects) (hne : s.db ≠ []) :
    ∃ i, s.selected = some i ∧ i < s.db.length := by
  obtain ⟨i, hsel, hlt⟩ := run_selInv evs (appInit db0) s (selInv_appInit db0) hrun
  have hpos : 0 < s.db.length := List.length_pos.mpr hne
  exact ⟨i, hsel, by omega⟩

/-- Witness for C7 at a concrete input: initial one-record store, the event
sequence consisting of the projects key alone. -/
theorem projects_selection_invariant_witness :
    run (appInit [sampleProject]) [Ev.key_p] =
      some { active_menu_item := MenuItem.Projects, selected := some 0,
             db := [sampleProject] } ∧
    ({ active_menu_item := MenuItem.Projects, selected := some 0,
       db := [sampleProject] } : AppState).active_menu_item =
      MenuItem.Projects ∧
    ({ active_menu_item := MenuItem.Projects, selected := some 0,
       db := [sampleProject] } : AppState).db ≠ [] ∧
    ∃ i, ({ active_menu_item := MenuItem.Projects, selected := some 0,
            db := [sampleProject] } : AppState).selected = some i ∧
      i < ({ active_menu_item := MenuItem.Projects, selected := some 0,
             db := [sampleProject] } : AppState).db.length :=
  ⟨rfl, rfl, by decide,
    projects_selection_invariant [sampleProject] [Ev.key_p] _ rfl rfl
      (by decide)⟩

/-- C10: in every state reachable from the initial state the selection is
`Some i` for some `i` (it starts at `Some 0` and no handler ever sets it to
`None`), so the placeholder branch of `render_projects` that tests for an
absent selection fires exactly when the list itself is empty. -/
theorem selection_always_some (db0 : List Project) (evs : List Ev)
    (s : AppState) (hrun : run (appInit db0) evs = some s) :
    s.selected.isSome = true ∧
    showsPlaceholder s.selected s.db = (s.db.length == 0) := by
  obtain ⟨i, hsel, hlt⟩ := run_selInv evs (appInit db0) s (selInv_appInit db0) hrun
  rw [hsel]
  exact ⟨rfl, by simp [showsPlaceholder]⟩

/-- Witness for C10 at a concrete input: empty initial store, empty event
sequence. -/
theorem selection_always_some_witness :
    run (appInit []) [] = some (appInit []) ∧
    (appInit []).selected.isSome = true ∧
    showsPlaceholder (appInit []).selected (appInit []).db =
      ((appInit []).db.length == 0) :=
  ⟨rfl, (selection_always_some [] [] (appInit []) rfl).1,
    (selection_always_some [] [] (appInit []) rfl).2⟩

end Whisk
